import Mathlib

/-
Verification of the minimal register allocator
(src/lib/RegisterAllocator.cpp, class RegisterAllocatorMinimal).

Physical registers (MCRegister / MCPhysReg) and virtual registers are
modelled as Nat; the MCRegister value 0 is the invalid register, used by
selectOrSplit to signal that no register was selected.  Live ranges are
lists of [start, end) slot-index segments.  External collaborators
(LiveIntervals, MachineRegisterInfo, TargetRegisterInfo, RegisterClassInfo,
LiveRegMatrix) enter the model as input data; the LiveRegMatrix interference
check, queried but not implemented by this repository, is modelled from the
spec's contract for it.
-/

namespace RegAllocMinimal

/-- Interference classification returned by LiveRegMatrix::checkInterference:
IK_Free, IK_VirtReg, IK_RegUnit, IK_RegMask.  The switch in selectOrSplit
(src/lib/RegisterAllocator.cpp:199-213) handles IK_Free and IK_VirtReg
explicitly and treats the remaining kinds with a default branch. -/
inductive InterferenceKind
  | free
  | virtReg
  | regUnit
  | regMask
deriving DecidableEq

/-- Candidate-list construction of selectOrSplit
(src/lib/RegisterAllocator.cpp:176-187): the Hints vector is filled by
getRegAllocationHints, and when the hint is not hard every register of the
class allocation order is pushed after the hints. -/
def buildCandidates (hints : List Nat) (isHardHint : Bool) (order : List Nat) : List Nat :=
  if !isHardHint then hints ++ order else hints

/-- The candidate scan loop of selectOrSplit
(src/lib/RegisterAllocator.cpp:196-214): walk the candidate list, return
the first register whose interference check is IK_Free, push registers
checking as IK_VirtReg onto PhysRegSpillCandidates, skip everything else;
when the list is exhausted the function falls through and returns 0
(src/lib/RegisterAllocator.cpp:224).  The result pairs the returned
MCRegister with the collected spill candidates. -/
def scanCandidates (check : Nat → InterferenceKind) :
    List Nat → List Nat → Nat × List Nat
  | [], cands => (0, cands)
  | p :: rest, cands =>
    match check p with
    | .free => (p, cands)
    | .virtReg => scanCandidates check rest (cands ++ [p])
    | _ => scanCandidates check rest cands

/-- RegisterAllocatorMinimal::selectOrSplit
(src/lib/RegisterAllocator.cpp:153-225), abstracted over the interference
answers for the live interval being allocated.  The result triple is the
returned MCRegister (0 meaning none), the PhysRegSpillCandidates vector at
the end of the call, and the content appended to *SplitVirtRegs, which the
function never touches. -/
def selectOrSplit (check : Nat → InterferenceKind) (order hints : List Nat)
    (isHardHint : Bool) : Nat × List Nat × List Nat :=
  let res := scanCandidates check (buildCandidates hints isHardHint order) []
  (res.1, res.2, [])

/-- Input data of one runOnMachineFunction invocation: everything the pass
reads from its (external) analyses.  Virtual registers are their
index2VirtReg indices 0 .. numVirtRegs-1; nodbgEmptyInit and nodbgEmptyLoop
are the answers of MRI->reg_nodbg_empty at the initial enqueue pass
(src/lib/RegisterAllocator.cpp:294) and at pop time
(src/lib/RegisterAllocator.cpp:304), which query mutable external state and
may differ.  weight is each live interval's spill weight, available from
LiveIntervals.  regMaskInterf and regUnitInterf are the fixed (non-virtual)
interference answers of the LiveRegMatrix. -/
structure AllocInput where
  numVirtRegs : Nat
  units : Nat → List Nat
  liveRange : Nat → List (Nat × Nat)
  weight : Nat → Nat
  regMaskInterf : Nat → Nat → Bool
  regUnitInterf : Nat → Nat → Bool
  order : Nat → List Nat
  hints : Nat → List Nat
  isHardHint : Nat → Bool
  nodbgEmptyInit : Nat → Bool
  nodbgEmptyLoop : Nat → Bool

/-- Overlap of two [start, end) segments of slot indexes. -/
def segOverlap (a b : Nat × Nat) : Bool :=
  decide (a.1 < b.2) && decide (b.1 < a.2)

/-- Overlap of two live ranges: some segment of one overlaps some segment of
the other. -/
def rangesOverlap (xs ys : List (Nat × Nat)) : Bool :=
  xs.any fun a => ys.any fun b => segOverlap a b

/-- Two physical registers alias when they share a register unit. -/
def sharesUnit (inp : AllocInput) (p q : Nat) : Bool :=
  (inp.units p).any fun u => decide (u ∈ inp.units q)

/-- The state the pass mutates: the committed virtual-to-physical
assignments (VirtRegMap / LiveRegMatrix, in commit order) and the intervals
dropped via LIS->removeInterval. -/
structure RunState where
  assignments : List (Nat × Nat)
  removed : List Nat
deriving DecidableEq

/-- Modelled from the spec: LiveRegMatrix::checkInterference, the external
Interference Oracle this repository queries but does not implement.  Per the
contract, Free means no committed assignment overlaps any unit of the
candidate register for the full span of the live range; OccupiedByVirtual
means some currently assigned virtual register's committed range overlaps a
unit of the candidate; reserved/unit/mask interference covers physical
resources that are not reassignable virtual assignments. -/
def checkInterference (inp : AllocInput) (assignments : List (Nat × Nat))
    (v p : Nat) : InterferenceKind :=
  if inp.regMaskInterf v p then .regMask
  else if inp.regUnitInterf v p then .regUnit
  else if assignments.any (fun wq =>
      rangesOverlap (inp.liveRange v) (inp.liveRange wq.1) && sharesUnit inp p wq.2) then
    .virtReg
  else .free

/-- Body of the while loop of runOnMachineFunction
(src/lib/RegisterAllocator.cpp:302-324) for one popped live interval v:
if MRI->reg_nodbg_empty(v) now holds, remove the interval and continue;
otherwise call selectOrSplit and, when it returned a register, commit the
assignment via LRM->assign. -/
def loopBody (inp : AllocInput) (st : RunState) (v : Nat) : RunState :=
  if inp.nodbgEmptyLoop v then
    { st with removed := st.removed ++ [v] }
  else
    let res := selectOrSplit (checkInterference inp st.assignments v)
      (inp.order v) (inp.hints v) (inp.isHardHint v)
    if res.1 ≠ 0 then { st with assignments := st.assignments ++ [(v, res.1)] } else st

/-- One iteration of the while loop as a step on (queue, state): dequeue
returns nullptr on an empty queue and the loop exits; otherwise the front
interval is popped and processed.  Nothing in the loop body pushes onto the
queue. -/
def step (inp : AllocInput) : List Nat × RunState → Option (List Nat × RunState)
  | ([], _) => none
  | (v :: rest, st) => some (rest, loopBody inp st v)

/-- The while loop of runOnMachineFunction, run to completion from a given
queue and state. -/
def allocLoop (inp : AllocInput) : List Nat → RunState → RunState
  | [], st => st
  | v :: rest, st => allocLoop inp rest (loopBody inp st v)

/-- Initial enqueue pass of runOnMachineFunction
(src/lib/RegisterAllocator.cpp:287-299): for each virtual register index in
ascending order, skip it when MRI->reg_nodbg_empty holds, otherwise enqueue
its live interval. -/
def initialQueue (inp : AllocInput) : List Nat :=
  (List.range inp.numVirtRegs).foldl
    (fun q v => if inp.nodbgEmptyInit v then q else q ++ [v]) []

/-- RegisterAllocatorMinimal::runOnMachineFunction
(src/lib/RegisterAllocator.cpp:238-327): build the initial queue, then run
the allocation loop starting from no assignments and no removed
intervals. -/
def runOnMachineFunction (inp : AllocInput) : RunState :=
  allocLoop inp (initialQueue inp) ⟨[], []⟩

/-- Concrete input: one virtual register v0 with non-debug uses whose only
candidate register R1 has fixed register-unit interference with v0's range,
so no candidate is Free and no spill candidate is recorded. -/
def inpA : AllocInput where
  numVirtRegs := 1
  units := fun p => [p]
  liveRange := fun _ => [(0, 10)]
  weight := fun _ => 5
  regMaskInterf := fun _ _ => false
  regUnitInterf := fun _ p => decide (p = 1)
  order := fun _ => [1]
  hints := fun _ => []
  isHardHint := fun _ => false
  nodbgEmptyInit := fun _ => false
  nodbgEmptyLoop := fun _ => false

/-- Concrete input realising the spec's eviction scenario: v0 (spill weight
10) and v1 (spill weight 1) have overlapping live ranges and the same sole
candidate register R1; v0 is enqueued first. -/
def inpB : AllocInput where
  numVirtRegs := 2
  units := fun p => [p]
  liveRange := fun v => if v = 0 then [(0, 10)] else [(5, 15)]
  weight := fun v => if v = 0 then 10 else 1
  regMaskInterf := fun _ _ => false
  regUnitInterf := fun _ _ => false
  order := fun _ => [1]
  hints := fun _ => []
  isHardHint := fun _ => false
  nodbgEmptyInit := fun _ => false
  nodbgEmptyLoop := fun _ => false

/-- Concrete input whose only virtual register has become debug-only by the
time it is popped from the queue. -/
def inpDbg : AllocInput :=
  { inpA with nodbgEmptyLoop := fun _ => true }

/-- Characterisation of the candidate scan: it returns the first candidate
whose check is Free together with all OccupiedByVirtual candidates seen
before it, and when no candidate is Free it returns 0 together with every
OccupiedByVirtual candidate of the whole list. -/
theorem scanCandidates_eq (check : Nat → InterferenceKind) (l acc : List Nat) :
    scanCandidates check l acc =
      match l.find? (fun p => decide (check p = InterferenceKind.free)) with
      | some p => (p, acc ++ (l.takeWhile fun p => !decide (check p = InterferenceKind.free)).filter
          (fun p => decide (check p = InterferenceKind.virtReg)))
      | none => (0, acc ++ l.filter fun p => decide (check p = InterferenceKind.virtReg)) := by
  induction l generalizing acc with
  | nil => simp [scanCandidates]
  | cons p rest ih =>
    cases hc : check p with
    | free =>
      simp [scanCandidates, hc, List.find?_cons, List.takeWhile_cons]
    | virtReg =>
      rw [show scanCandidates check (p :: rest) acc
            = scanCandidates check rest (acc ++ [p]) by simp [scanCandidates, hc]]
      rw [ih]
      cases hf : rest.find? (fun p => decide (check p = InterferenceKind.free)) with
      | none => simp [hc, hf, List.find?_cons, List.takeWhile_cons, List.filter_cons]
      | some q => simp [hc, hf, List.find?_cons, List.takeWhile_cons, List.filter_cons]
    | regUnit =>
      rw [show scanCandidates check (p :: rest) acc
            = scanCandidates check rest acc by simp [scanCandidates, hc]]
      rw [ih]
      cases hf : rest.find? (fun p => decide (check p = InterferenceKind.free)) with
      | none => simp [hc, hf, List.find?_cons, List.takeWhile_cons, List.filter_cons]
      | some q => simp [hc, hf, List.find?_cons, List.takeWhile_cons, List.filter_cons]
    | regMask =>
      rw [show scanCandidates check (p :: rest) acc
            = scanCandidates check rest acc by simp [scanCandidates, hc]]
      rw [ih]
      cases hf : rest.find? (fun p => decide (check p = InterferenceKind.free)) with
      | none => simp [hc, hf, List.find?_cons, List.takeWhile_cons, List.filter_cons]
      | some q => simp [hc, hf, List.find?_cons, List.takeWhile_cons, List.filter_cons]

/-- A nonzero register returned by the candidate scan was classified Free. -/
theorem scanCandidates_fst_free {check : Nat → InterferenceKind} {l acc : List Nat}
    (h : (scanCandidates check l acc).1 ≠ 0) :
    check (scanCandidates check l acc).1 = InterferenceKind.free := by
  induction l generalizing acc with
  | nil => simp [scanCandidates] at h
  | cons p rest ih =>
    cases hc : check p with
    | free =>
      have hr : scanCandidates check (p :: rest) acc = (p, acc) := by
        simp [scanCandidates, hc]
      rw [hr]
      exact hc
    | virtReg =>
      have hr : scanCandidates check (p :: rest) acc
          = scanCandidates check rest (acc ++ [p]) := by simp [scanCandidates, hc]
      rw [hr] at h ⊢
      exact ih h
    | regUnit =>
      have hr : scanCandidates check (p :: rest) acc
          = scanCandidates check rest acc := by simp [scanCandidates, hc]
      rw [hr] at h ⊢
      exact ih h
    | regMask =>
      have hr : scanCandidates check (p :: rest) acc
          = scanCandidates check rest acc := by simp [scanCandidates, hc]
      rw [hr] at h ⊢
      exact ih h

/-- Segment overlap is symmetric. -/
theorem segOverlap_symm {a b : Nat × Nat} (h : segOverlap a b = true) :
    segOverlap b a = true := by
  simp [segOverlap] at h ⊢
  exact ⟨h.2, h.1⟩

/-- Live-range overlap is symmetric. -/
theorem rangesOverlap_symm {xs ys : List (Nat × Nat)} (h : rangesOverlap xs ys = true) :
    rangesOverlap ys xs = true := by
  simp only [rangesOverlap, List.any_eq_true] at h ⊢
  obtain ⟨a, ha, b, hb, hab⟩ := h
  exact ⟨b, hb, a, ha, segOverlap_symm hab⟩

/-- Aliasing of physical registers is symmetric. -/
theorem sharesUnit_symm {inp : AllocInput} {p q : Nat} (h : sharesUnit inp p q = true) :
    sharesUnit inp q p = true := by
  simp only [sharesUnit, List.any_eq_true, decide_eq_true_eq] at h ⊢
  obtain ⟨u, hu, hu2⟩ := h
  exact ⟨u, hu2, hu⟩

/-- A register with at least one unit aliases itself. -/
theorem sharesUnit_self {inp : AllocInput} {p : Nat} (h : inp.units p ≠ []) :
    sharesUnit inp p p = true := by
  simp only [sharesUnit, List.any_eq_true, decide_eq_true_eq]
  cases hu : inp.units p with
  | nil => exact absurd hu h
  | cons u rest => exact ⟨u, by simp [hu]⟩

/-- When the oracle reports Free, no committed assignment overlaps a unit of
the candidate register. -/
theorem checkInterference_free {inp : AllocInput} {asg : List (Nat × Nat)} {v p : Nat}
    (h : checkInterference inp asg v p = InterferenceKind.free) :
    ∀ wq ∈ asg, ¬(rangesOverlap (inp.liveRange v) (inp.liveRange wq.1) = true
        ∧ sharesUnit inp p wq.2 = true) := by
  rintro wq hw ⟨hov, hsh⟩
  have hany : asg.any (fun wq =>
      rangesOverlap (inp.liveRange v) (inp.liveRange wq.1) && sharesUnit inp p wq.2) = true :=
    List.any_eq_true.2 ⟨wq, hw, by simp [hov, hsh]⟩
  unfold checkInterference at h
  rw [if_pos hany] at h
  split_ifs at h

/-- Pairwise absence of conflicts among committed assignments: whenever the
live ranges of two assigned virtual registers overlap, their physical
registers share no unit. -/
def NoConflict (inp : AllocInput) (l : List (Nat × Nat)) : Prop :=
  l.Pairwise fun a b =>
    rangesOverlap (inp.liveRange a.1) (inp.liveRange b.1) = true →
      sharesUnit inp a.2 b.2 = false

/-- One loop iteration preserves the absence of conflicts: a new assignment
is only committed when the oracle reported Free against the current state. -/
theorem loopBody_preserves (inp : AllocInput) (st : RunState) (v : Nat)
    (h : NoConflict inp st.assignments) :
    NoConflict inp (loopBody inp st v).assignments := by
  unfold loopBody
  split_ifs with h1
  · exact h
  · by_cases h2 : (selectOrSplit (checkInterference inp st.assignments v)
        (inp.order v) (inp.hints v) (inp.isHardHint v)).1 ≠ 0
    · rw [if_pos h2]
      have hfree : checkInterference inp st.assignments v
          (selectOrSplit (checkInterference inp st.assignments v)
            (inp.order v) (inp.hints v) (inp.isHardHint v)).1 = InterferenceKind.free :=
        scanCandidates_fst_free h2
      refine List.pairwise_append.2 ⟨h, List.pairwise_singleton _ _, ?_⟩
      intro a ha b hb
      have hb2 : b = (v, (selectOrSplit (checkInterference inp st.assignments v)
          (inp.order v) (inp.hints v) (inp.isHardHint v)).1) := by simpa using hb
      subst hb2
      intro hov
      by_contra hsh
      have hsh2 : sharesUnit inp a.2 (selectOrSplit (checkInterference inp st.assignments v)
          (inp.order v) (inp.hints v) (inp.isHardHint v)).1 = true := by
        simpa using hsh
      exact checkInterference_free hfree a ha ⟨rangesOverlap_symm hov, sharesUnit_symm hsh2⟩
    · rw [if_neg h2]
      exact h

/-- The allocation loop preserves the absence of conflicts. -/
theorem allocLoop_preserves (inp : AllocInput) (q : List Nat) (st : RunState)
    (h : NoConflict inp st.assignments) :
    NoConflict inp (allocLoop inp q st).assignments := by
  induction q generalizing st with
  | nil => exact h
  | cons v rest ih => exact ih _ (loopBody_preserves inp st v h)

/-- The initial enqueue pass is the ascending filter of the virtual-register
indices by the non-debug-use test. -/
theorem initialQueue_eq_filter (inp : AllocInput) :
    initialQueue inp
      = (List.range inp.numVirtRegs).filter fun v => !inp.nodbgEmptyInit v := by
  have key : ∀ (l acc : List Nat),
      l.foldl (fun q v => if inp.nodbgEmptyInit v then q else q ++ [v]) acc
        = acc ++ l.filter (fun v => !inp.nodbgEmptyInit v) := by
    intro l
    induction l with
    | nil => intro acc; simp
    | cons v rest ih =>
      intro acc
      by_cases h : inp.nodbgEmptyInit v
      · simp [h, ih]
      · simp [h, ih (acc ++ [v]), List.filter_cons]
  simpa using key (List.range inp.numVirtRegs) []

/-- Claim C2: selectOrSplit walks the resolved candidate order first-fit and
returns the first candidate the interference oracle classifies as Free; each
candidate classified OccupiedByVirtual is recorded as a spill candidate and
the scan continues, so when no candidate is Free the recorded spill
candidates are exactly the OccupiedByVirtual candidates of the entire order;
candidates with reserved/unit/mask interference are skipped without being
recorded. -/
theorem selectOrSplit_first_fit (check : Nat → InterferenceKind)
    (order hints : List Nat) (isHard : Bool) :
    selectOrSplit check order hints isHard =
      match (buildCandidates hints isHard order).find?
          (fun p => decide (check p = InterferenceKind.free)) with
      | some p => (p, ((buildCandidates hints isHard order).takeWhile
            fun p => !decide (check p = InterferenceKind.free)).filter
            (fun p => decide (check p = InterferenceKind.virtReg)), [])
      | none => (0, (buildCandidates hints isHard order).filter
          (fun p => decide (check p = InterferenceKind.virtReg)), []) := by
  simp only [selectOrSplit]
  rw [scanCandidates_eq]
  cases h : (buildCandidates hints isHard order).find?
      (fun p => decide (check p = InterferenceKind.free)) <;> simp [h]

/-- Claim C3 counterexample: with the soft hint list [1] and the class order
[1, 2] the resolved candidate sequence is [1, 1, 2], so register 1 appears
twice: the hints are not de-duplicated against the class order. -/
theorem buildCandidates_dup_counterexample :
    buildCandidates [1] false [1, 2] = [1, 1, 2]
    ∧ (buildCandidates [1] false [1, 2]).count 1 = 2 := by
  constructor <;> rfl

/-- Claim C3 (amended): the hints come first in their given order; with a
hard hint the sequence is exactly the hints; otherwise the entire class
order is appended after the hints without de-duplication. -/
theorem buildCandidates_spec (hints order : List Nat) (isHard : Bool) :
    (buildCandidates hints isHard order).take hints.length = hints
    ∧ buildCandidates hints true order = hints
    ∧ buildCandidates hints false order = hints ++ order := by
  refine ⟨?_, rfl, rfl⟩
  cases isHard with
  | true => simp [buildCandidates]
  | false => simp [buildCandidates, List.take_left]

/-- Claim C6: the initial pass enqueues exactly the virtual registers that
have a non-debug use, in ascending virtual-register index order; registers
whose uses are all debug instructions are never enqueued. -/
theorem initialQueue_spec (inp : AllocInput) :
    (∀ v, v ∈ initialQueue inp ↔ v < inp.numVirtRegs ∧ inp.nodbgEmptyInit v = false)
    ∧ (initialQueue inp).Pairwise (· < ·) := by
  constructor
  · intro v
    rw [initialQueue_eq_filter]
    simp [List.mem_filter, List.mem_range]
  · rw [initialQueue_eq_filter]
    exact (List.pairwise_lt_range _).sublist (List.filter_sublist _)

/-- Claim C7: a popped live interval whose virtual register has become
debug-only is discarded: no assignment is committed for it and its interval
is removed from the live-interval bookkeeping. -/
theorem debug_only_discarded (inp : AllocInput) (st : RunState) (v : Nat)
    (h : inp.nodbgEmptyLoop v = true) :
    (loopBody inp st v).assignments = st.assignments
    ∧ (loopBody inp st v).removed = st.removed ++ [v] := by
  simp [loopBody, h]

/-- Concrete witness for debug_only_discarded. -/
theorem debug_only_discarded_witness :
    inpDbg.nodbgEmptyLoop 0 = true
    ∧ ((loopBody inpDbg ⟨[], []⟩ 0).assignments = ([] : List (Nat × Nat))
       ∧ (loopBody inpDbg ⟨[], []⟩ 0).removed = [] ++ [0]) :=
  ⟨rfl, debug_only_discarded inpDbg ⟨[], []⟩ 0 rfl⟩

/-- Claim C8: the allocation loop terminates: the loop body never pushes
onto the worklist, so every step of the loop strictly shrinks the queue (the
number of eviction-triggered re-enqueues is zero) and the run performs
exactly one pop per queued interval until the queue is empty. -/
theorem allocLoop_terminates (inp : AllocInput) (q : List Nat) (st : RunState)
    (cfg : List Nat × RunState) (h : step inp (q, st) = some cfg) :
    cfg.1.length < q.length ∧ allocLoop inp q st = allocLoop inp cfg.1 cfg.2 := by
  cases q with
  | nil => exact absurd h (by simp [step])
  | cons v rest =>
    have hc : cfg = (rest, loopBody inp st v) := by
      have h2 := h
      simp [step] at h2
      exact h2.symm
    subst hc
    exact ⟨by simp, rfl⟩

/-- Concrete witness for allocLoop_terminates. -/
theorem allocLoop_terminates_witness :
    step inpA ([0], ⟨[], []⟩) = some ([], loopBody inpA ⟨[], []⟩ 0)
    ∧ ((([] : List Nat), loopBody inpA ⟨[], []⟩ 0).1.length < [0].length
       ∧ allocLoop inpA [0] ⟨[], []⟩
           = allocLoop inpA (([] : List Nat), loopBody inpA ⟨[], []⟩ 0).1
             (([] : List Nat), loopBody inpA ⟨[], []⟩ 0).2) :=
  ⟨rfl, allocLoop_terminates inpA [0] ⟨[], []⟩ ([], loopBody inpA ⟨[], []⟩ 0) rfl⟩

/-- Claim C9: the run is deterministic: two runs whose inputs agree on every
component (virtual registers, live ranges and weights, hints and hard
flags, class orders, fixed-interference answers, debug-use answers) produce
identical final states. -/
theorem runOnMachineFunction_deterministic (i1 i2 : AllocInput)
    (h1 : i1.numVirtRegs = i2.numVirtRegs) (h2 : i1.units = i2.units)
    (h3 : i1.liveRange = i2.liveRange) (h4 : i1.weight = i2.weight)
    (h5 : i1.regMaskInterf = i2.regMaskInterf) (h6 : i1.regUnitInterf = i2.regUnitInterf)
    (h7 : i1.order = i2.order) (h8 : i1.hints = i2.hints)
    (h9 : i1.isHardHint = i2.isHardHint) (h10 : i1.nodbgEmptyInit = i2.nodbgEmptyInit)
    (h11 : i1.nodbgEmptyLoop = i2.nodbgEmptyLoop) :
    runOnMachineFunction i1 = runOnMachineFunction i2 := by
  have h : i1 = i2 := by
    cases i1
    cases i2
    simp_all
  rw [h]

/-- Concrete witness for runOnMachineFunction_deterministic. -/
theorem runOnMachineFunction_deterministic_witness :
    inpA.numVirtRegs = inpA.numVirtRegs ∧ inpA.units = inpA.units
    ∧ inpA.liveRange = inpA.liveRange ∧ inpA.weight = inpA.weight
    ∧ inpA.regMaskInterf = inpA.regMaskInterf ∧ inpA.regUnitInterf = inpA.regUnitInterf
    ∧ inpA.order = inpA.order ∧ inpA.hints = inpA.hints
    ∧ inpA.isHardHint = inpA.isHardHint ∧ inpA.nodbgEmptyInit = inpA.nodbgEmptyInit
    ∧ inpA.nodbgEmptyLoop = inpA.nodbgEmptyLoop
    ∧ runOnMachineFunction inpA = runOnMachineFunction inpA :=
  ⟨rfl, rfl, rfl, rfl, rfl, rfl, rfl, rfl, rfl, rfl, rfl,
    runOnMachineFunction_deterministic inpA inpA rfl rfl rfl rfl rfl rfl rfl rfl rfl rfl rfl⟩

/-- Claim C10: when selectOrSplit returns 0 the scheduler performs no state
change for that live interval: no assignment is committed, nothing is
spilled or removed, the SplitVirtRegs output stays empty, and the interval
is not re-enqueued (the loop step leaves exactly the rest of the queue). -/
theorem selectOrSplit_zero_no_change (inp : AllocInput) (st : RunState) (v : Nat)
    (hdbg : inp.nodbgEmptyLoop v = false)
    (h0 : (selectOrSplit (checkInterference inp st.assignments v)
        (inp.order v) (inp.hints v) (inp.isHardHint v)).1 = 0) :
    loopBody inp st v = st
    ∧ (selectOrSplit (checkInterference inp st.assignments v)
        (inp.order v) (inp.hints v) (inp.isHardHint v)).2.2 = ([] : List Nat)
    ∧ ∀ rest : List Nat, step inp (v :: rest, st) = some (rest, st) := by
  have hbody : loopBody inp st v = st := by
    simp [loopBody, hdbg, h0]
  refine ⟨hbody, rfl, fun rest => ?_⟩
  simp [step, hbody]

/-- Concrete witness for selectOrSplit_zero_no_change. -/
theorem selectOrSplit_zero_no_change_witness :
    inpA.nodbgEmptyLoop 0 = false
    ∧ (selectOrSplit (checkInterference inpA (RunState.mk [] []).assignments 0)
        (inpA.order 0) (inpA.hints 0) (inpA.isHardHint 0)).1 = 0
    ∧ (loopBody inpA ⟨[], []⟩ 0 = ⟨[], []⟩
       ∧ (selectOrSplit (checkInterference inpA (RunState.mk [] []).assignments 0)
           (inpA.order 0) (inpA.hints 0) (inpA.isHardHint 0)).2.2 = ([] : List Nat)
       ∧ ∀ rest : List Nat, step inpA (0 :: rest, ⟨[], []⟩) = some (rest, ⟨[], []⟩)) :=
  ⟨rfl, rfl, selectOrSplit_zero_no_change inpA ⟨[], []⟩ 0 rfl rfl⟩

/-- Claim C5: committed assignments never conflict: whenever the live ranges
of two assigned virtual registers overlap, they hold different physical
registers and those registers share no aliasing unit — every commit used a
register the oracle reported Free against the state at commit time. -/
theorem runOnMachineFunction_unique (inp : AllocInput)
    (hunits : ∀ p, inp.units p ≠ []) :
    (runOnMachineFunction inp).assignments.Pairwise fun a b =>
      rangesOverlap (inp.liveRange a.1) (inp.liveRange b.1) = true →
        a.2 ≠ b.2 ∧ sharesUnit inp a.2 b.2 = false := by
  have h : NoConflict inp (runOnMachineFunction inp).assignments :=
    allocLoop_preserves inp _ _ List.Pairwise.nil
  refine h.imp fun {a b} hab hov => ?_
  have hsh := hab hov
  refine ⟨?_, hsh⟩
  intro heq
  rw [heq] at hsh
  rw [@sharesUnit_self inp b.2 (hunits b.2)] at hsh
  exact Bool.noConfusion hsh

/-- Concrete witness for runOnMachineFunction_unique. -/
theorem runOnMachineFunction_unique_witness :
    (∀ p, inpB.units p ≠ [])
    ∧ (runOnMachineFunction inpB).assignments.Pairwise fun a b =>
        rangesOverlap (inpB.liveRange a.1) (inpB.liveRange b.1) = true →
          a.2 ≠ b.2 ∧ sharesUnit inpB a.2 b.2 = false :=
  ⟨fun p => List.cons_ne_nil p [],
    runOnMachineFunction_unique inpB fun p => List.cons_ne_nil p []⟩

/-- Claim C1 (code divergence, at the spec's own eviction scenario): the
code assigns R1 to v0; v1 then collides with v0 on its only candidate R1,
which is collected as a spill candidate, and selectOrSplit returns 0 —
nothing is evicted, spilled or requeued, and the run never reads a spill
weight: its result is unchanged under every reweighting. -/
theorem selectOrSplit_no_eviction :
    runOnMachineFunction inpB = ⟨[(0, 1)], []⟩
    ∧ selectOrSplit (checkInterference inpB [(0, 1)] 1) (inpB.order 1) (inpB.hints 1)
        (inpB.isHardHint 1) = (0, [1], [])
    ∧ ∀ w : Nat → Nat,
        runOnMachineFunction { inpB with weight := w } = runOnMachineFunction inpB :=
  ⟨rfl, rfl, fun _ => rfl⟩

/-- Claim C4 (code divergence): a virtual register with non-debug uses whose
allocation is exhausted is silently dropped: v0 is enqueued and popped, no
candidate is Free, and the run ends with v0 neither assigned, nor spilled,
nor removed — the final state carries no failure outcome of any kind. -/
theorem exhaustion_silently_dropped :
    inpA.nodbgEmptyInit 0 = false
    ∧ initialQueue inpA = [0]
    ∧ runOnMachineFunction inpA = ⟨[], []⟩ :=
  ⟨rfl, rfl, rfl⟩

end RegAllocMinimal
